import Mathlib

/-!
# databr/datasus crawler: cache key, request service and retry loop

A shallow embedding of `crawler.go`.  Go strings are sequences of runes
(`String`), byte slices are lists of bytes, the global variables
(`Errors`, the two job queues, the cache directory on disk) are fields of an
explicit state that every function takes and returns, and the calls into the
operating system, the HTTP client and the HTML library are parameters
gathered in `Env`.  `time.Sleep` and logging have no effect on the state and
are left out.  `request`, `makeRequest` and `processRequestQueue` are followed
as one goroutine runs them.  The crawl workers, the goroutines started by
`getCities` and the main goroutine meet on the two unbuffered job channels;
they form a transition system (`Pool`, `workerStep`) in which a send stays in
the channel's list of blocked senders until a worker receives it.
-/

set_option autoImplicit false

namespace Crawler

/-! ## Cache key (`urlToFilename`) -/

/-- The Perl class `\w` of Go's `regexp` package: `[0-9A-Za-z_]`, ASCII only. -/
def isWordChar (c : Char) : Bool :=
  ('0' ≤ c && c ≤ '9') || ('A' ≤ c && c ≤ 'Z') || ('a' ≤ c && c ≤ 'z') || c == '_'

/-- The compiled pattern `\W` as a predicate on one rune: it matches exactly the
runes that are not word characters. -/
def urlToFileRegex (c : Char) : Bool := !isWordChar c

/-- `Regexp.ReplaceAllString` for a pattern that matches single runes: every
matching rune is replaced by `repl`, every other rune is copied. -/
def ReplaceAllString (re : Char → Bool) (src repl : String) : String :=
  String.mk (src.data.flatMap fun c => if re c then repl.data else [c])

/-- `urlToFilename`: `CACHE_FOLDER + "/" + urlToFileRegex.ReplaceAllString(u, "-")`.
`CACHE_FOLDER` is read from the process environment, so it is an argument. -/
def urlToFilename (CACHE_FOLDER u : String) : String :=
  CACHE_FOLDER ++ "/" ++ ReplaceAllString urlToFileRegex u "-"

/-- The rune-by-rune substitution that `urlToFilename` performs, written with the
standard library's ASCII classification. -/
def keepWord (c : Char) : Char := if c.isAlphanum || c == '_' then c else '-'

/-- The substitution as the specification words it: a rune is kept when it is a
letter or a digit and replaced by the separator otherwise. -/
def keepAlphanumeric (c : Char) : Char := if c.isAlphanum then c else '-'

/-- The cache key as the specification words it. -/
def specFilename (CACHE_FOLDER u : String) : String :=
  CACHE_FOLDER ++ "/" ++ String.mk (u.data.map keepAlphanumeric)

/-! ## Files, readers and the network -/

/-- Contents of files and HTTP bodies. -/
abbrev Bytes := List (Fin 256)

/-- Go `error` values, identified by their message. -/
abbrev Error := String

/-- An `io.Reader`: the bytes it still delivers, followed by end of file
(`fault = none`) or by a read error. -/
structure Reader where
  rest : Bytes
  fault : Option Error
deriving DecidableEq, Repr

/-- `ioutil.ReadAll`: all bytes up to end of file or the first error, the error (if
any), and the reader afterwards, which has nothing left to deliver. -/
def ReadAll (r : Reader) : Bytes × Option Error × Reader :=
  (r.rest, r.fault, { r with rest := [] })

/-- `goquery.NewDocumentFromReader`: `html.Parse` consumes the reader; a read error
gives `(nil, err)`, otherwise the bytes delivered are parsed.  `parse` is the
HTML parser on a complete input, which accepts every byte sequence. -/
def NewDocumentFromReader {Doc : Type} (parse : Bytes → Doc) (r : Reader) :
    Option Doc × Option Error :=
  match r.fault with
  | some e => (none, some e)
  | none => (some (parse r.rest), none)

/-- A file on disk: its content, the error `os.Open` returns for it (if any) and
the error reading it ends with (if any). -/
structure FileNode where
  data : Bytes
  openErr : Option Error
  readErr : Option Error
deriving DecidableEq, Repr

/-- The result of `client.Do`: a transport error or a response with its body. -/
inductive NetReply where
  | failed (e : Error)
  | ok (body : Reader)
deriving DecidableEq, Repr

/-- What a request worker can touch: the files on disk (a map from file name to
file), which names `ioutil.WriteFile` can write, and the number of `client.Do`
calls made so far. -/
structure World where
  files : String → Option FileNode
  writable : String → Bool
  netCalls : Nat

/-- The collaborators of the request service.  `urlParse` is `url.Parse` followed
by the re-encoding of the query and `String()`, `newRequest` is the error of
`http.NewRequest` (if any), and `clientDo n url` is the reply to the `n`-th
`client.Do` call when it asks for `url`. -/
structure Env (Doc : Type) where
  CACHE_FOLDER : String
  parse : Bytes → Doc
  urlParse : String → Except Error String
  newRequest : String → Option Error
  clientDo : Nat → String → NetReply

/-- `os.Stat(name)` returns a nil error exactly when the file exists. -/
def Stat (w : World) (name : String) : Bool := (w.files name).isSome

/-- `os.Open(name)`: a reader over the file, or the error of opening it. -/
def Open (w : World) (name : String) : Except Error Reader :=
  match w.files name with
  | none => .error "no such file or directory"
  | some node =>
    match node.openErr with
    | some e => .error e
    | none => .ok { rest := node.data, fault := node.readErr }

/-- `ioutil.WriteFile(name, data, os.ModePerm)` with its error dropped, as at the
call site: the file is created or truncated to `data` when it can be written,
and nothing happens otherwise. -/
def WriteFile (w : World) (name : String) (data : Bytes) : World :=
  if w.writable name then
    { w with files := fun n =>
        if n = name then
          match w.files name with
          | some node => some { node with data := data }
          | none => some { data := data, openErr := none, readErr := none }
        else w.files n }
  else w

/-- `Response`: the document pointer (nil is `none`) and the error (nil is `none`). -/
structure Response (Doc : Type) where
  Doc : Option Doc
  Err : Option Error
deriving DecidableEq, Repr

/-- `makeRequest`: the world afterwards and the returned pair `(doc, err)`; the
pair is `none` when `url.Parse` fails, where `log.Fatal` ends the process.
The body is first drained by `ioutil.ReadAll` (error dropped), the bytes read
are written to the cache file (error dropped), and the same, now drained,
body is handed to `goquery.NewDocumentFromReader`. -/
def makeRequest {Doc : Type} (env : Env Doc) (w : World) (urlS : String) :
    Option (Option Doc × Option Error) × World :=
  match env.urlParse urlS with
  | .error _ => (none, w)
  | .ok urlP =>
    match env.newRequest urlP with
    | some e => (some (none, some e), w)
    | none =>
      let w1 := { w with netCalls := w.netCalls + 1 }
      match env.clientDo w.netCalls urlP with
      | .failed e => (some (none, some e), w1)
      | .ok body =>
        let (data, _, body1) := ReadAll body
        let w2 := WriteFile w1 (urlToFilename env.CACHE_FOLDER urlS) data
        (some (NewDocumentFromReader env.parse body1), w2)

/-- One iteration of the loop of `processRequestQueue` for the request `url`: the
`Response` sent on the reply channel (`none` when `makeRequest` ends the
process) and the world afterwards.  In the cache branch `file, err := os.Open`
declares a new `err` local to that block; the parse result is assigned to
`doc` and to that inner `err`, so the `err` of the `Response` is still the nil
error of `os.Stat`. -/
def processRequestQueue {Doc : Type} (env : Env Doc) (w : World) (url : String) :
    Option (Response Doc) × World :=
  let filename := urlToFilename env.CACHE_FOLDER url
  if Stat w filename then
    match Open w filename with
    | .error _ => (some { Doc := none, Err := none }, w)
    | .ok file =>
      let (doc, _) := NewDocumentFromReader env.parse file
      (some { Doc := doc, Err := none }, w)
  else
    match makeRequest env w url with
    | (none, w1) => (none, w1)
    | (some (doc, err), w1) => (some { Doc := doc, Err := err }, w1)

/-! ## Retry loop (`request`) and crawl workers (`Workers`) -/

/-- `NewState`: a state page to crawl. -/
structure NewState where
  Name : String
  Url : String
deriving DecidableEq, Repr

/-- `NewCity`: a city page to crawl. -/
structure NewCity where
  Name : String
  Url : String
  IBGE : String
deriving DecidableEq, Repr

/-- `WORKERS`: the number of crawl workers. -/
def WORKERS : Nat := 30

/-- `CNES_BASE_URL`. -/
def CNES_BASE_URL : String := "http://cnes.datasus.gov.br/"

/-- A goroutine that sends on a job queue: the main goroutine inside `getStates`
(l.104), a goroutine started by `getCities` (l.111-117), or crawl worker `i`
putting a failed job back (l.80, l.90). -/
inductive Sender where
  | main
  | spawned
  | worker (i : Nat)
deriving DecidableEq, Repr

/-- The global variables of the program next to the state `σ` of the request
service.  `Errors` is the `map[string]int64` (a key that is absent reads as 0).
`StateQueue` and `CityQueue` are unbuffered channels (`make(chan ...)` without
a capacity): a send blocks until a worker receives the value.  A queue is the
list of the sends in progress, oldest first; an entry is the goroutine blocked
in the send and the job it offers, and it leaves the list when the job is
received.  `fetches` counts the requests put on `RequestQueue`; nothing reads
it, it only serves to count fetch attempts. -/
structure State (σ : Type) where
  service : σ
  Errors : String → Int
  StateQueue : List (Sender × NewState)
  CityQueue : List (Sender × NewCity)
  fetches : Nat

/-- Addition on `int64` wraps around. -/
def wrapInt64 (x : Int) : Int :=
  (x + 9223372036854775808) % 18446744073709551616 - 9223372036854775808

/-- The assignment `Errors[u] = v`. -/
def setCount (errors : String → Int) (u : String) (v : Int) : String → Int :=
  fun k => if k = u then v else errors k

/-- `request`.  Sending on `RequestQueue` and receiving on the private channel is
one call of `fetch`, the request service seen from the caller: it maps the
service state and the URL to the `Response` and the next service state.  The
first argument bounds the number of fetch attempts; `none` means the bound
was reached before the call returned. -/
def request {σ Doc : Type} (fetch : σ → String → Response Doc × σ) :
    Nat → State σ → String → Option ((Option Doc × Option Error) × State σ)
  | 0, _, _ => none
  | fuel + 1, s, u =>
    let (r, service1) := fetch s.service u
    let s1 := { s with service := service1, fetches := s.fetches + 1 }
    match r.Err with
    | some e =>
      if s1.Errors u > 3 then some ((none, some e), s1)
      else
        request fetch fuel
          { s1 with Errors := setCount s1.Errors u (wrapInt64 (s1.Errors u + 1)) } u
    | none => some ((r.Doc, none), s1)

/-- A job received by `select` in `Workers`. -/
inductive Job where
  | state (j : NewState)
  | city (j : NewCity)
deriving DecidableEq, Repr

/-- The URL of a job: `state.Url` or `city.Url`. -/
def Job.Url : Job → String
  | .state j => j.Url
  | .city j => j.Url

/-- The service state after `n` fetches of `u`. -/
def serviceAfter {σ Doc : Type} (fetch : σ → String → Response Doc × σ) (u : String) :
    Nat → σ → σ
  | 0, t => t
  | n + 1, t => serviceAfter fetch u n (fetch t u).2

/-- The reply to the fetch of `u` that follows `n` earlier fetches of `u`. -/
def replyAfter {σ Doc : Type} (fetch : σ → String → Response Doc × σ) (u : String)
    (n : Nat) (t : σ) : Response Doc :=
  (fetch (serviceAfter fetch u n t) u).1

/-- How one iteration of the loop of `Workers` ends: at the end of the case, or in
the nil pointer dereference of `doc.Find` on a nil document, which ends the
process. -/
inductive Step (σ : Type) where
  | next (s : State σ)
  | panic (s : State σ)

/-- The global variables at the end of an iteration. -/
def Step.state {σ : Type} : Step σ → State σ
  | .next s => s
  | .panic s => s

/-- Whether an iteration ended in a panic. -/
def Step.panicked {σ : Type} : Step σ → Bool
  | .next _ => false
  | .panic _ => true

/-- One iteration of the loop of `Workers` run by crawl worker `i`, from the point
where `select` has received `job` (so `job` is no longer in its queue) to the last
statement of the case; `none` means the attempt bound of `request` was reached.
On an error the worker enters the send that puts the job back: the entry
`(worker i, job)` joins the queue, and the worker stays blocked while it is
there.  On success `getCities doc` is the list of cities found on the page;
each is sent on `CityQueue` by a goroutine of its own, so the worker goes back
to `select`.  `getEntities` only logs.  Both parsers start with `doc.Find`,
which panics when the reply has a nil document and a nil error. -/
def Workers {σ Doc : Type} (fetch : σ → String → Response Doc × σ)
    (getCities : Doc → List NewCity) (fuel : Nat) (i : Nat) (job : Job) (s : State σ) :
    Option (Step σ) :=
  match job with
  | .state state =>
    match request fetch fuel s state.Url with
    | none => none
    | some ((_, some _), s1) =>
      some (.next { s1 with StateQueue := s1.StateQueue ++ [(.worker i, state)] })
    | some ((none, none), s1) => some (.panic s1)
    | some ((some doc, none), s1) =>
      some (.next { s1 with
        CityQueue := s1.CityQueue ++ (getCities doc).map fun c => (Sender.spawned, c) })
  | .city city =>
    match request fetch fuel s city.Url with
    | none => none
    | some ((_, some _), s1) =>
      some (.next { s1 with CityQueue := s1.CityQueue ++ [(.worker i, city)] })
    | some ((none, none), s1) => some (.panic s1)
    | some ((some _, none), s1) => some (.next s1)

/-! ## The pool of crawl workers as a transition system -/

/-- The program from the point where `Collector` has started the crawl workers:
the global variables, the rows that `getStates` has still to send after the
one it is offering (the main goroutine sends them one after the other), and
whether the process has ended in a panic. -/
structure Pool (σ : Type) where
  globals : State σ
  seeding : List NewState
  exited : Bool

/-- The two cases of the `select` in `Workers`. -/
inductive Case where
  | state
  | city
deriving DecidableEq, Repr

/-- Crawl worker `i` is blocked in the send that puts a failed job back. -/
def blocked {σ : Type} (s : State σ) (i : Nat) : Bool :=
  s.StateQueue.any (fun e => e.1 == Sender.worker i) ||
    s.CityQueue.any (fun e => e.1 == Sender.worker i)

/-- Every crawl worker is blocked in the send that puts a failed job back. -/
def allBlocked {σ : Type} (s : State σ) : Bool :=
  (List.range WORKERS).all (blocked s)

/-- A receive on one of the two channels: the oldest send in progress completes
and its job is handed over; there is nothing to receive when no goroutine is
sending.  When the sender was the main goroutine, `getStates` goes on to the
next row and offers it. -/
def receive {σ : Type} (c : Case) (p : Pool σ) : Option (Job × Pool σ) :=
  match c with
  | .state =>
    match p.globals.StateQueue with
    | [] => none
    | (sender, j) :: rest =>
      match sender, p.seeding with
      | .main, row :: rows =>
        some (.state j,
          { p with globals := { p.globals with StateQueue := rest ++ [(.main, row)] },
                   seeding := rows })
      | _, _ => some (.state j, { p with globals := { p.globals with StateQueue := rest } })
  | .city =>
    match p.globals.CityQueue with
    | [] => none
    | (_, j) :: rest =>
      some (.city j, { p with globals := { p.globals with CityQueue := rest } })

/-- Crawl worker `i` can take case `c` of its `select`: the process is running,
`i` is one of the `WORKERS` workers, it is at `select` and not blocked in a
send, and some goroutine is sending on the channel of `c`. -/
def enabled {σ : Type} (i : Nat) (c : Case) (p : Pool σ) : Bool :=
  !p.exited && decide (i < WORKERS) && !blocked p.globals i && (receive c p).isSome

/-- One step of the pool: crawl worker `i` receives on the channel of `c` and runs
the case to its end, where it is back at `select` or blocked in the send that
puts the job back.  The other goroutines do not move in between, which is one
of the interleavings the scheduler allows.  `none` when the step is not
enabled or the attempt bound of `request` was reached. -/
def workerStep {σ Doc : Type} (fetch : σ → String → Response Doc × σ)
    (getCities : Doc → List NewCity) (fuel : Nat) (i : Nat) (c : Case) (p : Pool σ) :
    Option (Pool σ) :=
  if enabled i c p then
    match receive c p with
    | none => none
    | some (job, p1) =>
      match Workers fetch getCities fuel i job p1.globals with
      | none => none
      | some (.next s) => some { p1 with globals := s }
      | some (.panic s) => some { p1 with globals := s, exited := true }
  else none

/-- A run of the pool: the steps of a schedule, one after the other. -/
def runSchedule {σ Doc : Type} (fetch : σ → String → Response Doc × σ)
    (getCities : Doc → List NewCity) (fuel : Nat) :
    List (Nat × Case) → Pool σ → Option (Pool σ)
  | [], p => some p
  | (i, c) :: rest, p =>
    match workerStep fetch getCities fuel i c p with
    | none => none
    | some p1 => runSchedule fetch getCities fuel rest p1

/-- `Collector`, up to the point where the crawl workers run and `getStates` is
sending: the root page is requested until `request` returns it (each failure
calls `Collector` again), the workers are started, and the main goroutine
offers the first row found by `getStates` on `StateQueue`.  `getStates` panics
on a nil document.  `none` means the bound on attempts was reached. -/
def Collector {σ Doc : Type} (fetch : σ → String → Response Doc × σ)
    (getStates : Doc → List NewState) : Nat → State σ → Option (Pool σ)
  | 0, _ => none
  | fuel + 1, s =>
    match request fetch (fuel + 1) s (CNES_BASE_URL ++ "Lista_Tot_Es_Estado.asp") with
    | none => none
    | some ((_, some _), s1) => Collector fetch getStates fuel s1
    | some ((none, none), s1) => some { globals := s1, seeding := [], exited := true }
    | some ((some doc, none), s1) =>
      match getStates doc with
      | [] => some { globals := s1, seeding := [], exited := false }
      | row :: rows =>
        some { globals := { s1 with StateQueue := s1.StateQueue ++ [(.main, row)] },
               seeding := rows, exited := false }

/-! ## Concrete inputs -/

/-- A request service in which every fetch fails. -/
def failingFetch : Unit → String → Response Bytes × Unit :=
  fun _ _ => ({ Doc := none, Err := some "connection refused" }, ())

/-- A request service driven by a script: the state is the number of fetches
served so far, the first `k` fetches fail and every later one succeeds with
the document `[k]`. -/
def flakyFetch (k : Nat) : Nat → String → Response Bytes × Nat :=
  fun n _ =>
    if n < k then ({ Doc := none, Err := some "timeout" }, n + 1)
    else ({ Doc := some [Fin.ofNat k], Err := none }, n + 1)

/-- A cache directory without files in which every name can be written. -/
def emptyDisk : World :=
  { files := fun _ => none, writable := fun _ => true, netCalls := 0 }

/-- The bytes of `<a>`. -/
def pageBytes : Bytes := [60, 97, 62]

/-- A server that answers every GET with the body `pageBytes`. -/
def liveEnv {Doc : Type} (parse : Bytes → Doc) : Env Doc :=
  { CACHE_FOLDER := "cache"
    parse := parse
    urlParse := fun u => .ok u
    newRequest := fun _ => none
    clientDo := fun _ _ => .ok { rest := pageBytes, fault := none } }

/-- A cache directory whose only file is the cache file of `http://x/`; the file
holds `pageBytes` and `os.Open` is refused on it. -/
def lockedDisk : World :=
  { files := fun n =>
      if n = "cache/http---x-" then
        some { data := pageBytes, openErr := some "permission denied", readErr := none }
      else none
    writable := fun _ => true
    netCalls := 0 }

/-- The pages of a small catalogue: the root page and the page of one state. -/
inductive Page where
  | root
  | acre
deriving DecidableEq, Repr

/-- The URL of the root page, as `Collector` builds it. -/
def rootUrl : String := CNES_BASE_URL ++ "Lista_Tot_Es_Estado.asp"

/-- The only state of the small catalogue. -/
def acreJob : NewState := { Name := "Acre", Url := CNES_BASE_URL ++ "uf12.asp" }

/-- The `n`-th city of the small catalogue. -/
def cityJob (n : Nat) : NewCity :=
  { Name := "city", Url := CNES_BASE_URL ++ "mun" ++ Nat.repr n ++ ".asp", IBGE := Nat.repr n }

/-- What `getStates` finds: the root page lists the one state. -/
def catalogueStates : Page → List NewState
  | .root => [acreJob]
  | .acre => []

/-- What `getCities` finds: the page of the state lists `WORKERS` cities. -/
def catalogueCities : Page → List NewCity
  | .root => []
  | .acre => (List.range WORKERS).map cityJob

/-- A request service that delivers the root page and the page of the state, and
fails on every city page. -/
def catalogueFetch : Unit → String → Response Page × Unit :=
  fun _ u =>
    if u = rootUrl then ({ Doc := some .root, Err := none }, ())
    else if u = acreJob.Url then ({ Doc := some .acre, Err := none }, ())
    else ({ Doc := none, Err := some "connection refused" }, ())

/-- A schedule of the pool: worker 0 takes the state, then each of the workers
0, 1, ..., `WORKERS - 1` takes a city. -/
def catalogueSchedule : List (Nat × Case) :=
  (0, Case.state) :: (List.range WORKERS).map fun i => (i, Case.city)

/-- The state at program start: no failure counts, empty queues. -/
def initState {σ : Type} (service : σ) : State σ :=
  { service := service, Errors := fun _ => 0, StateQueue := [], CityQueue := [], fetches := 0 }

/-! ## Cache key: what `urlToFilename` keeps and what it replaces -/

theorem isWordChar_eq (c : Char) : isWordChar c = (c.isAlphanum || c == '_') := by
  have h0 : '0'.val = 48 := rfl
  have h9 : '9'.val = 57 := rfl
  have hA : 'A'.val = 65 := rfl
  have hZ : 'Z'.val = 90 := rfl
  have ha : 'a'.val = 97 := rfl
  have hz : 'z'.val = 122 := rfl
  simp only [isWordChar, Char.isAlphanum, Char.isAlpha, Char.isUpper, Char.isLower, Char.isDigit,
    Char.le_def, h0, h9, hA, hZ, ha, hz, ge_iff_le]
  generalize decide ((48 : UInt32) ≤ c.val) = b1
  generalize decide (c.val ≤ (57 : UInt32)) = b2
  generalize decide ((65 : UInt32) ≤ c.val) = b3
  generalize decide (c.val ≤ (90 : UInt32)) = b4
  generalize decide ((97 : UInt32) ≤ c.val) = b5
  generalize decide (c.val ≤ (122 : UInt32)) = b6
  generalize (c == '_') = b7
  cases b1 <;> cases b2 <;> cases b3 <;> cases b4 <;> cases b5 <;> cases b6 <;> cases b7 <;> rfl

theorem flatMap_dash (l : List Char) :
    (l.flatMap fun c => if urlToFileRegex c then "-".data else [c]) = l.map keepWord := by
  induction l with
  | nil => rfl
  | cons a t ih =>
    have ha : (if urlToFileRegex a then "-".data else [a]) = [keepWord a] := by
      unfold urlToFileRegex keepWord
      rw [isWordChar_eq]
      cases a.isAlphanum || a == '_' <;> rfl
    simp only [List.flatMap_cons, List.map_cons, ih, ha, List.singleton_append]

/-- C4, as amended: for every cache folder and URL, `urlToFilename` is the cache
folder, then "/", then the URL in which the ASCII letters, the ASCII digits and
the underscore are left unchanged and every other rune is replaced by "-", in
the same order. -/
theorem urlToFilename_keeps_word_chars (CACHE_FOLDER u : String) :
    urlToFilename CACHE_FOLDER u
      = CACHE_FOLDER ++ "/" ++
          String.mk (u.data.map fun c => if c.isAlphanum || c == '_' then c else '-') := by
  unfold urlToFilename ReplaceAllString
  rw [flatMap_dash]
  rfl

/-- C4, counterexample: the underscore is neither a letter nor a digit, and
`urlToFilename` keeps it where the claim has it replaced by the separator. -/
theorem urlToFilename_keeps_underscore :
    urlToFilename "cache" "a_b" = "cache/a_b" ∧
      specFilename "cache" "a_b" = "cache/a-b" ∧
      urlToFilename "cache" "a_b" ≠ specFilename "cache" "a_b" := by
  decide

/-- C8: `urlToFilename` is many-to-one.  The URLs `a/b` and `a.b` differ only in
the non-word character at position 1 and have the same cache key in every
cache folder, so `urlToFilename` is not injective and the URL cannot be
recovered from its key. -/
theorem urlToFilename_many_to_one :
    ("a/b" : String) ≠ "a.b" ∧
      (∀ CACHE_FOLDER : String,
        urlToFilename CACHE_FOLDER "a/b" = urlToFilename CACHE_FOLDER "a.b") ∧
      (∀ CACHE_FOLDER : String, ¬ Function.Injective (urlToFilename CACHE_FOLDER)) := by
  have hne : ("a/b" : String) ≠ "a.b" := by decide
  have heq : ∀ CACHE_FOLDER : String,
      urlToFilename CACHE_FOLDER "a/b" = urlToFilename CACHE_FOLDER "a.b" := by
    intro cf
    rw [urlToFilename_keeps_word_chars, urlToFilename_keeps_word_chars]
    rfl
  exact ⟨hne, heq, fun cf hinj => hne (hinj (heq cf))⟩

/-! ## Request service: the cache file and the reply -/

theorem WriteFile_files_other (w : World) (name other : String) (data : Bytes)
    (h : other ≠ name) : (WriteFile w name data).files other = w.files other := by
  unfold WriteFile
  split
  · simp [h]
  · rfl

theorem WriteFile_files_changed (w : World) (name : String) (data : Bytes)
    (h : (WriteFile w name data).files name ≠ w.files name) :
    ((WriteFile w name data).files name).map FileNode.data = some data := by
  unfold WriteFile at h ⊢
  split
  · simp only [if_true]
    cases w.files name <;> rfl
  · rename_i hw
    simp [hw] at h

/-- C7: `makeRequest` writes a cache file only after the HTTP GET succeeded.  If
`url.Parse`, `http.NewRequest` or `client.Do` returns an error, the files are
the same after the call as before; and every file name whose entry differs
after the call is `urlToFilename(u)`, the GET returned a response, and the
file holds the bytes read from that response's body. -/
theorem makeRequest_writes_only_after_get {Doc : Type} (env : Env Doc) (w : World)
    (urlS : String) :
    (((∃ e, env.urlParse urlS = .error e) ∨
        (∃ urlP e, env.urlParse urlS = .ok urlP ∧ env.newRequest urlP = some e) ∨
        (∃ urlP e, env.urlParse urlS = .ok urlP ∧ env.newRequest urlP = none ∧
          env.clientDo w.netCalls urlP = .failed e)) →
      (makeRequest env w urlS).2.files = w.files) ∧
    (∀ name, (makeRequest env w urlS).2.files name ≠ w.files name →
      name = urlToFilename env.CACHE_FOLDER urlS ∧
      ∃ urlP body, env.urlParse urlS = .ok urlP ∧ env.newRequest urlP = none ∧
        env.clientDo w.netCalls urlP = .ok body ∧
        ((makeRequest env w urlS).2.files name).map FileNode.data = some body.rest) := by
  cases hp : env.urlParse urlS with
  | error e => simp [makeRequest, hp]
  | ok urlP =>
    cases hn : env.newRequest urlP with
    | some e => simp [makeRequest, hp, hn]
    | none =>
      cases hd : env.clientDo w.netCalls urlP with
      | failed e => simp [makeRequest, hp, hn, hd]
      | ok body =>
        have hres : (makeRequest env w urlS).2
            = WriteFile { w with netCalls := w.netCalls + 1 }
                (urlToFilename env.CACHE_FOLDER urlS) body.rest := by
          simp [makeRequest, hp, hn, hd, ReadAll]
        rw [hres]
        refine ⟨?_, ?_⟩
        · rintro (⟨e, he⟩ | ⟨urlP1, e, h1, h2⟩ | ⟨urlP1, e, h1, h2, h3⟩)
          · cases he
          · cases h1
            rw [hn] at h2
            cases h2
          · cases h1
            rw [hd] at h3
            cases h3
        · intro name hname
          have hfile : name = urlToFilename env.CACHE_FOLDER urlS := by
            by_contra hne
            exact hname (WriteFile_files_other _ _ _ _ hne)
          subst hfile
          exact ⟨rfl, urlP, body, rfl, hn, hd, WriteFile_files_changed _ _ _ hname⟩

/-- C3, the code at a failing input: `http://x/` is not cached and the GET returns
the body `<a>`.  The first fetch writes the body to the cache file with one
network call and replies with the parse of the drained body, that is, of no
bytes; the second fetch makes no network call and replies with the parse of
the cached body. -/
theorem processRequestQueue_first_reply_parses_drained_body {Doc : Type}
    (parse : Bytes → Doc) :
    (processRequestQueue (liveEnv parse) emptyDisk "http://x/").1
        = some { Doc := some (parse []), Err := none } ∧
      ((processRequestQueue (liveEnv parse) emptyDisk "http://x/").2.files
          (urlToFilename "cache" "http://x/")).map FileNode.data = some pageBytes ∧
      (processRequestQueue (liveEnv parse) emptyDisk "http://x/").2.netCalls = 1 ∧
      (processRequestQueue (liveEnv parse)
          (processRequestQueue (liveEnv parse) emptyDisk "http://x/").2 "http://x/").1
        = some { Doc := some (parse pageBytes), Err := none } ∧
      (processRequestQueue (liveEnv parse)
          (processRequestQueue (liveEnv parse) emptyDisk "http://x/").2 "http://x/").2.netCalls
        = 1 :=
  ⟨rfl, rfl, rfl, rfl, rfl⟩

/-- C5, the code at a failing input: the cache file of `http://x/` exists and
`os.Open` fails on it.  The reply has a nil error and a nil document. -/
theorem processRequestQueue_open_error_dropped {Doc : Type} (parse : Bytes → Doc) :
    Stat lockedDisk (urlToFilename "cache" "http://x/") = true ∧
      Open lockedDisk (urlToFilename "cache" "http://x/") = .error "permission denied" ∧
      (processRequestQueue (liveEnv parse) lockedDisk "http://x/").1
        = some { Doc := none, Err := none } :=
  ⟨rfl, rfl, rfl⟩


/-- Whenever the cache file exists, the reply carries a nil error, whatever
`os.Open` and the parse return. -/
theorem processRequestQueue_cached_err_nil {Doc : Type} (env : Env Doc) (w : World)
    (url : String) (h : Stat w (urlToFilename env.CACHE_FOLDER url) = true) :
    ∃ doc, processRequestQueue env w url = (some { Doc := doc, Err := none }, w) := by
  unfold processRequestQueue
  simp only [h, if_true]
  cases Open w (urlToFilename env.CACHE_FOLDER url) with
  | error e => exact ⟨none, rfl⟩
  | ok file => exact ⟨_, rfl⟩

/-- On a cache miss the error of `client.Do` is the error of the reply. -/
theorem processRequestQueue_network_error_surfaces {Doc : Type} (env : Env Doc) (w : World)
    (url urlP : String) (e : Error)
    (hmiss : w.files (urlToFilename env.CACHE_FOLDER url) = none)
    (hp : env.urlParse url = .ok urlP) (hn : env.newRequest urlP = none)
    (hd : env.clientDo w.netCalls urlP = .failed e) :
    (processRequestQueue env w url).1 = some { Doc := none, Err := some e } := by
  simp [processRequestQueue, Stat, hmiss, makeRequest, hp, hn, hd]

/-- A cache miss followed by a cache hit: when the GET succeeds with a body that
reads without error and the cache file can be written, the first reply is the
parse of no bytes and the second reply, served without a network call, is the
parse of the body. -/
theorem processRequestQueue_miss_then_hit {Doc : Type} (env : Env Doc) (w : World)
    (url urlP : String) (body : Reader)
    (hmiss : w.files (urlToFilename env.CACHE_FOLDER url) = none)
    (hw : w.writable (urlToFilename env.CACHE_FOLDER url) = true)
    (hp : env.urlParse url = .ok urlP) (hn : env.newRequest urlP = none)
    (hd : env.clientDo w.netCalls urlP = .ok body) (hb : body.fault = none) :
    (processRequestQueue env w url).1 = some { Doc := some (env.parse []), Err := none } ∧
      (processRequestQueue env w url).2.netCalls = w.netCalls + 1 ∧
      (processRequestQueue env (processRequestQueue env w url).2 url).1
        = some { Doc := some (env.parse body.rest), Err := none } ∧
      (processRequestQueue env (processRequestQueue env w url).2 url).2.netCalls
        = w.netCalls + 1 := by
  have hfirst : processRequestQueue env w url
      = (some { Doc := some (env.parse []), Err := none },
          WriteFile { w with netCalls := w.netCalls + 1 }
            (urlToFilename env.CACHE_FOLDER url) body.rest) := by
    simp [processRequestQueue, Stat, hmiss, makeRequest, hp, hn, hd, ReadAll,
      NewDocumentFromReader, hb]
  have hfile : (WriteFile { w with netCalls := w.netCalls + 1 }
        (urlToFilename env.CACHE_FOLDER url) body.rest).files
          (urlToFilename env.CACHE_FOLDER url)
      = some { data := body.rest, openErr := none, readErr := none } := by
    simp [WriteFile, hw, hmiss]
  have hcalls : (WriteFile { w with netCalls := w.netCalls + 1 }
        (urlToFilename env.CACHE_FOLDER url) body.rest).netCalls = w.netCalls + 1 := by
    simp [WriteFile, hw]
  have hsecond : processRequestQueue env
      (WriteFile { w with netCalls := w.netCalls + 1 }
        (urlToFilename env.CACHE_FOLDER url) body.rest) url
      = (some { Doc := some (env.parse body.rest), Err := none },
          WriteFile { w with netCalls := w.netCalls + 1 }
            (urlToFilename env.CACHE_FOLDER url) body.rest) := by
    simp [processRequestQueue, Stat, Open, hfile, NewDocumentFromReader]
  rw [hfirst]
  simp only [hsecond, hcalls, and_self]


/-! ## Retry loop: one attempt -/

section Retry

variable {σ Doc : Type} (fetch : σ → String → Response Doc × σ)

theorem request_ok (fuel : Nat) (s : State σ) (u : String)
    (h : (fetch s.service u).1.Err = none) :
    request fetch (fuel + 1) s u
      = some (((fetch s.service u).1.Doc, none),
          { s with service := (fetch s.service u).2, fetches := s.fetches + 1 }) := by
  simp only [request]
  split
  · rename_i e he
    rw [h] at he
    cases he
  · rfl

theorem request_fail_return (fuel : Nat) (s : State σ) (u : String) (e : Error)
    (h : (fetch s.service u).1.Err = some e) (hc : s.Errors u > 3) :
    request fetch (fuel + 1) s u
      = some ((none, some e),
          { s with service := (fetch s.service u).2, fetches := s.fetches + 1 }) := by
  simp only [request]
  split
  · rename_i e1 he
    rw [h] at he
    cases he
    simp [hc]
  · rename_i he
    rw [h] at he
    cases he

theorem request_fail_retry (fuel : Nat) (s : State σ) (u : String) (e : Error)
    (h : (fetch s.service u).1.Err = some e) (hc : ¬ s.Errors u > 3) :
    request fetch (fuel + 1) s u
      = request fetch fuel
          { s with service := (fetch s.service u).2, fetches := s.fetches + 1,
                   Errors := setCount s.Errors u (wrapInt64 (s.Errors u + 1)) } u := by
  simp only [request]
  split
  · rename_i e1 he
    simp [hc]
  · rename_i he
    rw [h] at he
    cases he

theorem setCount_same (errors : String → Int) (u : String) (v : Int) :
    setCount errors u v u = v := by
  simp [setCount]

theorem wrapInt64_succ (c : Int) (h0 : 0 ≤ c) (h3 : c ≤ 3) : wrapInt64 (c + 1) = c + 1 := by
  unfold wrapInt64
  omega

end Retry


section RetryTheorems

variable {σ Doc : Type} (fetch : σ → String → Response Doc × σ)

/-! ## Retry loop: termination and the number of attempts -/

theorem request_bounded (u : String) (fuel : Nat) :
    ∀ s : State σ, 0 ≤ s.Errors u → max 1 (5 - (s.Errors u).toNat) ≤ fuel →
      ∃ r, request fetch fuel s u = some r ∧
        s.fetches + 1 ≤ r.2.fetches ∧
        r.2.fetches ≤ s.fetches + max 1 (5 - (s.Errors u).toNat) ∧
        r.2.Errors u + s.fetches + 1 = s.Errors u + r.2.fetches := by
  induction fuel with
  | zero => intro s _ hf; omega
  | succ fuel ih =>
    intro s hc hf
    cases he : (fetch s.service u).1.Err with
    | none =>
      refine ⟨_, request_ok fetch fuel s u he, ?_, ?_, ?_⟩ <;> first | (simp; done) | (simp; omega)
    | some e =>
      by_cases h3 : s.Errors u > 3
      · refine ⟨_, request_fail_return fetch fuel s u e he h3, ?_, ?_, ?_⟩ <;> first | (simp; done) | (simp; omega)
      · have hw : wrapInt64 (s.Errors u + 1) = s.Errors u + 1 :=
          wrapInt64_succ _ hc (by omega)
        rw [request_fail_retry fetch fuel s u e he h3, hw]
        obtain ⟨r, hr, h1, h2, h4⟩ := ih
          { s with service := (fetch s.service u).2, fetches := s.fetches + 1,
                   Errors := setCount s.Errors u (s.Errors u + 1) }
          (by simp only [setCount_same]; omega)
          (by simp only [setCount_same]; omega)
        simp only [setCount_same] at h1 h2 h4
        exact ⟨r, hr, by omega, by omega, by omega⟩

/-- C10: `request` terminates with a bounded number of attempts.  For every
request service, URL and state whose count `c = Errors[u]` is non-negative, a
bound of `max(1, 5 - c)` attempts is enough for the call to return; it makes
at least one and at most `max(1, 5 - c)` fetch attempts; every attempt but the
last raised `Errors[u]` by one; and when `c` is at least 4 and the first fetch
fails, the call returns that error after exactly one attempt. -/
theorem request_terminates (s : State σ) (u : String) (fuel : Nat)
    (hc : 0 ≤ s.Errors u) (hfuel : max 1 (5 - (s.Errors u).toNat) ≤ fuel) :
    ∃ r, request fetch fuel s u = some r ∧
      s.fetches + 1 ≤ r.2.fetches ∧
      r.2.fetches ≤ s.fetches + max 1 (5 - (s.Errors u).toNat) ∧
      r.2.Errors u + s.fetches + 1 = s.Errors u + r.2.fetches ∧
      (4 ≤ s.Errors u → (fetch s.service u).1.Err ≠ none →
        r.1 = (none, (fetch s.service u).1.Err) ∧ r.2.fetches = s.fetches + 1) := by
  obtain ⟨r, hr, h1, h2, h3⟩ := request_bounded fetch u fuel s hc hfuel
  refine ⟨r, hr, h1, h2, h3, ?_⟩
  intro h4 hne
  obtain ⟨n, rfl⟩ : ∃ n, fuel = n + 1 := ⟨fuel - 1, by omega⟩
  cases he : (fetch s.service u).1.Err with
  | none => exact absurd he hne
  | some e =>
    rw [request_fail_return fetch n s u e he (by omega)] at hr
    cases hr
    exact ⟨rfl, rfl⟩

/-- C10, witness: with `Errors[u] = 0` and a service whose first two fetches fail,
a bound of 5 attempts is enough. -/
theorem request_terminates_witness :
    ∃ r, request (flakyFetch 2) 5 (initState 0) "u" = some r ∧
      (initState 0).fetches + 1 ≤ r.2.fetches ∧
      r.2.fetches ≤ (initState 0).fetches + max 1 (5 - ((initState 0).Errors "u").toNat) ∧
      r.2.Errors "u" + (initState 0).fetches + 1 = (initState 0).Errors "u" + r.2.fetches ∧
      (4 ≤ (initState 0).Errors "u" →
        (flakyFetch 2 (initState 0).service "u").1.Err ≠ none →
        r.1 = (none, (flakyFetch 2 (initState 0).service "u").1.Err) ∧
          r.2.fetches = (initState 0).fetches + 1) :=
  request_terminates (flakyFetch 2) (initState 0) "u" 5 (by decide) (by decide)

/-! ## Retry loop: every attempt fails -/

theorem request_all_fail_aux (u : String) (hfail : ∀ t, (fetch t u).1.Err ≠ none)
    (fuel : Nat) :
    ∀ s : State σ, 0 ≤ s.Errors u → s.Errors u ≤ 4 →
      (fuel < (5 - s.Errors u).toNat → request fetch fuel s u = none) ∧
      ((5 - s.Errors u).toNat ≤ fuel →
        ∃ e s1, request fetch fuel s u = some ((none, some e), s1) ∧
          s1.fetches = s.fetches + (5 - s.Errors u).toNat ∧ s1.Errors u = 4) := by
  induction fuel with
  | zero =>
    intro s h0 h4
    exact ⟨fun _ => rfl, fun h => by omega⟩
  | succ fuel ih =>
    intro s h0 h4
    cases he : (fetch s.service u).1.Err with
    | none => exact absurd he (hfail _)
    | some e =>
      by_cases h3 : s.Errors u > 3
      · have h : s.Errors u = 4 := by omega
        refine ⟨fun hlt => by omega, fun _ => ⟨e, _, request_fail_return fetch fuel s u e he h3, ?_, ?_⟩⟩
        · simp [h]
        · exact h
      · have hw : wrapInt64 (s.Errors u + 1) = s.Errors u + 1 :=
          wrapInt64_succ _ h0 (by omega)
        rw [request_fail_retry fetch fuel s u e he h3, hw]
        obtain ⟨ih1, ih2⟩ := ih
          { s with service := (fetch s.service u).2, fetches := s.fetches + 1,
                   Errors := setCount s.Errors u (s.Errors u + 1) }
          (by simp only [setCount_same]; omega)
          (by simp only [setCount_same]; omega)
        simp only [setCount_same] at ih1 ih2
        refine ⟨fun hlt => ih1 (by omega), fun hge => ?_⟩
        obtain ⟨e1, s1, hr, hf, hE⟩ := ih2 (by omega)
        exact ⟨e1, s1, hr, by omega, hE⟩

/-- C1, as amended: when `Errors[u]` is zero on entry and every fetch attempt
fails, `request(u)` returns the error after exactly 5 fetch attempts (the
initial attempt and 4 retries): a bound of 4 attempts is not enough for the
call to return, and with any bound of at least 5 it returns a nil document
and an error after 5 fetches, leaving `Errors[u]` at 4. -/
theorem request_all_fail_five_attempts (s : State σ) (u : String)
    (h0 : s.Errors u = 0) (hfail : ∀ t, (fetch t u).1.Err ≠ none) :
    request fetch 4 s u = none ∧
      ∀ fuel, 5 ≤ fuel →
        ∃ e s1, request fetch fuel s u = some ((none, some e), s1) ∧
          s1.fetches = s.fetches + 5 ∧ s1.Errors u = 4 := by
  refine ⟨?_, fun fuel hfuel => ?_⟩
  · exact (request_all_fail_aux fetch u hfail 4 s (by omega) (by omega)).1 (by rw [h0]; decide)
  · obtain ⟨e, s1, hr, hf, hE⟩ :=
      (request_all_fail_aux fetch u hfail fuel s (by omega) (by omega)).2 (by rw [h0]; exact hfuel)
    refine ⟨e, s1, hr, ?_, hE⟩
    rw [hf, h0]
    rfl

/-- C1, witness: the service that refuses every connection, from the initial
state. -/
theorem request_all_fail_five_attempts_witness :
    request failingFetch 4 (initState ()) "u" = none ∧
      ∀ fuel, 5 ≤ fuel →
        ∃ e s1, request failingFetch fuel (initState ()) "u" = some ((none, some e), s1) ∧
          s1.fetches = (initState ()).fetches + 5 ∧ s1.Errors "u" = 4 :=
  request_all_fail_five_attempts failingFetch (initState ()) "u" rfl
    (fun _ => by simp [failingFetch])

/-- C1, counterexample: `Errors[u]` is zero and every fetch fails; after 4 fetch
attempts the call has not returned, and it returns the error at the fifth. -/
theorem request_all_fail_not_four_attempts :
    (initState ()).Errors "u" = 0 ∧
      (request failingFetch 4 (initState ()) "u").isNone = true ∧
      (request failingFetch 5 (initState ()) "u").map (fun r => (r.1, r.2.fetches))
        = some ((none, some "connection refused"), 5) := by
  decide

end RetryTheorems


section RetryThenSuccess

variable {σ Doc : Type} (fetch : σ → String → Response Doc × σ)

/-! ## Retry loop: failures followed by a success -/

theorem request_fail_then_ok_aux (u : String) (k : Nat) :
    ∀ (s : State σ) (fuel : Nat), 0 ≤ s.Errors u → s.Errors u + k ≤ 4 →
      (∀ i, i < k → (replyAfter fetch u i s.service).Err ≠ none) →
      (replyAfter fetch u k s.service).Err = none →
      k + 1 ≤ fuel →
      ∃ s1, request fetch fuel s u
          = some (((replyAfter fetch u k s.service).Doc, none), s1) ∧
        s1.Errors u = s.Errors u + k ∧ s1.fetches = s.fetches + (k + 1) := by
  induction k with
  | zero =>
    intro s fuel _ _ _ hok hfuel
    obtain ⟨n, rfl⟩ : ∃ n, fuel = n + 1 := ⟨fuel - 1, by omega⟩
    exact ⟨_, request_ok fetch n s u hok, by simp, by simp⟩
  | succ k ih =>
    intro s fuel h0 h4 hfail hok hfuel
    obtain ⟨n, rfl⟩ : ∃ n, fuel = n + 1 := ⟨fuel - 1, by omega⟩
    have hfirst : (fetch s.service u).1.Err ≠ none := hfail 0 (by omega)
    cases he : (fetch s.service u).1.Err with
    | none => exact absurd he hfirst
    | some e =>
      have h3 : ¬ s.Errors u > 3 := by omega
      have hw : wrapInt64 (s.Errors u + 1) = s.Errors u + 1 :=
        wrapInt64_succ _ h0 (by omega)
      rw [request_fail_retry fetch n s u e he h3, hw]
      obtain ⟨s1, hr, hE, hf⟩ := ih
        { s with service := (fetch s.service u).2, fetches := s.fetches + 1,
                 Errors := setCount s.Errors u (s.Errors u + 1) } n
        (by simp only [setCount_same]; omega)
        (by simp only [setCount_same]; omega)
        (fun i hi => hfail (i + 1) (by omega))
        hok
        (by omega)
      simp only [setCount_same] at hE hf
      refine ⟨s1, hr, ?_, ?_⟩
      · rw [hE]; push_cast; omega
      · rw [hf]; omega

/-- C2, as amended: when `Errors[u]` is zero on entry, the first `k ≤ 3` fetch
attempts fail and attempt `k + 1` succeeds, `request(u)` returns the document
of the successful attempt with a nil error after `k + 1` fetches, and
afterwards `Errors[u]` is `k`: the count is not cleared. -/
theorem request_fail_then_ok (s : State σ) (u : String) (k fuel : Nat)
    (h0 : s.Errors u = 0) (hk : k ≤ 3)
    (hfail : ∀ i, i < k → (replyAfter fetch u i s.service).Err ≠ none)
    (hok : (replyAfter fetch u k s.service).Err = none)
    (hfuel : k + 1 ≤ fuel) :
    ∃ s1, request fetch fuel s u
        = some (((replyAfter fetch u k s.service).Doc, none), s1) ∧
      s1.Errors u = k ∧ s1.fetches = s.fetches + (k + 1) := by
  obtain ⟨s1, hr, hE, hf⟩ :=
    request_fail_then_ok_aux fetch u k s fuel (by omega) (by omega) hfail hok hfuel
  exact ⟨s1, hr, by omega, hf⟩

/-- C2, witness: two failures followed by a success, from the initial state. -/
theorem request_fail_then_ok_witness :
    ∃ s1, request (flakyFetch 2) 5 (initState 0) "u"
        = some (((replyAfter (flakyFetch 2) "u" 2 (initState 0).service).Doc, none), s1) ∧
      s1.Errors "u" = (2 : Nat) ∧ s1.fetches = (initState 0).fetches + (2 + 1) :=
  request_fail_then_ok (flakyFetch 2) (initState 0) "u" 2 5 rfl (by decide)
    (by decide) (by decide) (by decide)

/-- C2, counterexample: one failure followed by a success, from the initial
state.  The call returns the document with a nil error and `Errors[u]` is 1
afterwards, not zero. -/
theorem request_count_not_cleared :
    (initState 0).Errors "u" = 0 ∧
      (replyAfter (flakyFetch 1) "u" 0 (initState 0).service).Err ≠ none ∧
      (replyAfter (flakyFetch 1) "u" 1 (initState 0).service).Err = none ∧
      (request (flakyFetch 1) 5 (initState 0) "u").map (fun r => (r.1, r.2.Errors "u"))
        = some ((some [1], none), 1) := by
  decide

/-! ## Crawl workers -/

theorem request_queues (u : String) (fuel : Nat) :
    ∀ (s : State σ) (r : Option Doc × Option Error) (s1 : State σ),
      request fetch fuel s u = some (r, s1) →
      s1.StateQueue = s.StateQueue ∧ s1.CityQueue = s.CityQueue := by
  induction fuel with
  | zero => intro s r s1 h; cases h
  | succ fuel ih =>
    intro s r s1 h
    cases he : (fetch s.service u).1.Err with
    | none =>
      rw [request_ok fetch fuel s u he] at h
      cases h
      exact ⟨rfl, rfl⟩
    | some e =>
      by_cases h3 : s.Errors u > 3
      · rw [request_fail_return fetch fuel s u e he h3] at h
        cases h
        exact ⟨rfl, rfl⟩
      · rw [request_fail_retry fetch fuel s u e he h3] at h
        have hrec := ih _ r s1 h
        exact hrec

/-- C6, as amended: when `request` on the job's URL returns an error, the worker
puts the job back at the end of the queue it was taken from (`StateQueue` for
a state, `CityQueue` for a city) and leaves the other queue and the failure
counts as `request` left them; the worker is then blocked in that send. -/
theorem Workers_requeues_failed_job (getCities : Doc → List NewCity) (fuel i : Nat)
    (job : Job) (s s1 : State σ) (doc : Option Doc) (e : Error)
    (h : request fetch fuel s job.Url = some ((doc, some e), s1)) :
    ∃ s2, Workers fetch getCities fuel i job s = some (.next s2) ∧
      s2.Errors = s1.Errors ∧ s2.fetches = s1.fetches ∧ blocked s2 i = true ∧
      match job with
      | .state j =>
        s2.StateQueue = s.StateQueue ++ [(.worker i, j)] ∧ s2.CityQueue = s.CityQueue
      | .city j =>
        s2.CityQueue = s.CityQueue ++ [(.worker i, j)] ∧ s2.StateQueue = s.StateQueue := by
  obtain ⟨hS, hC⟩ := request_queues fetch job.Url fuel s _ s1 h
  cases job with
  | state j =>
    simp only [Job.Url] at h
    refine ⟨{ s1 with StateQueue := s1.StateQueue ++ [(.worker i, j)] }, ?_, rfl, rfl, ?_, ?_⟩
    · simp only [Workers, h]
    · simp [blocked]
    · simp [hS, hC]
  | city j =>
    simp only [Job.Url] at h
    refine ⟨{ s1 with CityQueue := s1.CityQueue ++ [(.worker i, j)] }, ?_, rfl, rfl, ?_, ?_⟩
    · simp only [Workers, h]
    · simp [blocked]
    · simp [hS, hC]

/-- C6, witness: a state job whose every fetch is refused, taken by worker 0. -/
theorem Workers_requeues_failed_job_witness :
    ∃ s1, request failingFetch 5 (initState ()) "u"
        = some ((none, some "connection refused"), s1) ∧
      ∃ s2, Workers failingFetch (fun _ => []) 5 0 (.state ⟨"Acre", "u"⟩) (initState ())
          = some (.next s2) ∧
        s2.Errors = s1.Errors ∧ s2.fetches = s1.fetches ∧ blocked s2 0 = true ∧
        s2.StateQueue = (initState ()).StateQueue ++ [(.worker 0, ⟨"Acre", "u"⟩)] ∧
        s2.CityQueue = (initState ()).CityQueue :=
  ⟨_, rfl, Workers_requeues_failed_job failingFetch (fun _ => []) 5 0 (.state ⟨"Acre", "u"⟩)
    (initState ()) _ none "connection refused" rfl⟩

/-- C6, counterexample: worker 0 has taken the state job `Acre` from `StateQueue`
and `request` returns an error for its URL; after the step the job is on
`StateQueue` again, offered by worker 0. -/
theorem Workers_puts_failed_job_back :
    (request failingFetch 5 (initState ()) "u").map (fun r => r.1)
        = some (none, some "connection refused") ∧
      (Workers failingFetch (fun _ => []) 5 0 (.state ⟨"Acre", "u"⟩) (initState ())).map
          (fun r => (r.panicked, r.state.StateQueue, r.state.CityQueue))
        = some (false, [(.worker 0, ⟨"Acre", "u"⟩)], []) := by
  decide

end RetryThenSuccess

/-! ## The pool of crawl workers: a reachable deadlock -/

theorem blocked_of_allBlocked {σ : Type} (s : State σ) (h : allBlocked s = true) (i : Nat)
    (hi : i < WORKERS) : blocked s i = true := by
  unfold allBlocked at h
  rw [List.all_eq_true] at h
  exact h i (List.mem_range.mpr hi)

theorem enabled_of_allBlocked {σ : Type} (p : Pool σ) (h : allBlocked p.globals = true)
    (i : Nat) (c : Case) : enabled i c p = false := by
  unfold enabled
  by_cases hi : i < WORKERS
  · simp [blocked_of_allBlocked p.globals h i hi]
  · simp [hi]

theorem workerStep_of_allBlocked {σ Doc : Type} (fetch : σ → String → Response Doc × σ)
    (getCities : Doc → List NewCity) (p : Pool σ) (h : allBlocked p.globals = true)
    (fuel i : Nat) (c : Case) : workerStep fetch getCities fuel i c p = none := by
  unfold workerStep
  simp [enabled_of_allBlocked p h i c]

set_option maxRecDepth 1000000

/-- C9, the code at a failing input: the root page lists one state, the page of
that state lists 30 cities and every fetch of a city page fails.  From the
start of the program, after worker 0 has taken the state and each of the 30
workers has taken one city, the process is still running, every one of the 30
crawl workers is blocked in `CityQueue <- city`, the 30 cities are the sends in
progress on `CityQueue`, no goroutine is left to receive, and no step of the
pool is possible under any attempt bound. -/
theorem Workers_all_blocked_reachable :
    ∃ p0 p, Collector catalogueFetch catalogueStates 5 (initState ()) = some p0 ∧
      runSchedule catalogueFetch catalogueCities 5 catalogueSchedule p0 = some p ∧
      p.exited = false ∧
      allBlocked p.globals = true ∧
      p.globals.StateQueue = [] ∧
      p.seeding = [] ∧
      p.globals.CityQueue = (List.range WORKERS).map (fun i => (Sender.worker i, cityJob i)) ∧
      (∀ i c, enabled i c p = false) ∧
      (∀ fuel i c, workerStep catalogueFetch catalogueCities fuel i c p = none) := by
  have h1 : ((Collector catalogueFetch catalogueStates 5 (initState ())).bind
        (runSchedule catalogueFetch catalogueCities 5 catalogueSchedule)).map
        (fun p => (p.exited, allBlocked p.globals, p.seeding))
      = some (false, true, []) := by
    decide
  have h2 : ((Collector catalogueFetch catalogueStates 5 (initState ())).bind
        (runSchedule catalogueFetch catalogueCities 5 catalogueSchedule)).map
        (fun p => p.globals.StateQueue)
      = some [] := by
    decide
  have h3 : ((Collector catalogueFetch catalogueStates 5 (initState ())).bind
        (runSchedule catalogueFetch catalogueCities 5 catalogueSchedule)).map
        (fun p => p.globals.CityQueue)
      = some ((List.range WORKERS).map (fun i => (Sender.worker i, cityJob i))) := by
    decide
  obtain ⟨p, hp, hf⟩ := Option.map_eq_some'.mp h1
  rw [hp] at h2 h3
  simp only [Option.map_some', Option.some.injEq] at h2 h3
  obtain ⟨p0, hp0, hrun⟩ := Option.bind_eq_some.mp hp
  simp only [Prod.mk.injEq] at hf
  obtain ⟨hexit, hall, hseed⟩ := hf
  exact ⟨p0, p, hp0, hrun, hexit, hall, h2, hseed, h3, enabled_of_allBlocked p hall,
    fun fuel i c => workerStep_of_allBlocked _ _ p hall fuel i c⟩

end Crawler
